import Mathlib

/-!
Shallow embedding of `@fivexlabs/conform-react` (Fivex-Labs/conform-react)
for checking its natural-language specification.

The embedding covers:
* `src/utils/conditionalLogic.ts` — `evaluateCondition`,
  `evaluateComplexCondition`, `evaluateConditionalLogic`,
  `evaluateSimpleCondition`, `getNestedValue`, `shouldFieldBeVisible`;
* `src/utils/validation.ts` — `createFieldValidationSchema`,
  `applyValidationRules`, `createFormValidationSchema`,
  `getValidationMessage`, `DEFAULT_VALIDATION_MESSAGES`,
  `validateFieldValue`, `validateFormData`, together with the semantics of
  the yup combinators (v1.4) those functions build and run.

JavaScript values are modelled by the inductive `Value`.  JS numbers are
modelled by integers (no claim exercises fractional or NaN arithmetic;
`Number(...)` coercion returning NaN is modelled by `Option.none`).
Reference equality on objects/arrays is modelled as `false` for distinct
literals, which is the only situation the claims exercise.  Exceptions are
modelled with `Except String`.
-/

namespace Conform

/-- A JavaScript runtime value, as far as the library observes it. -/
inductive Value where
  | undef : Value
  | null : Value
  | bool : Bool → Value
  | num : Int → Value
  | str : String → Value
  | arr : List Value → Value
  | obj : List (String × Value) → Value

/-- First-match lookup in a JS-object association list (own properties). -/
def lookupKey {α : Type} : List (String × α) → String → Option α
  | [], _ => none
  | (k, v) :: rest, key => if k = key then some v else lookupKey rest key

/-- JS property assignment `o[k] = v` on the association-list model:
updates the value in place when the key exists, otherwise appends
(JS objects keep first-insertion key order). -/
def jsObjSet {α : Type} : List (String × α) → String → α → List (String × α)
  | [], key, v => [(key, v)]
  | (k, w) :: rest, key, v =>
      if k = key then (key, v) :: rest else (k, w) :: jsObjSet rest key v

/-- JS truthiness. -/
def truthy : Value → Bool
  | .undef => false
  | .null => false
  | .bool b => b
  | .num n => n != 0
  | .str s => s != ""
  | .arr _ => true
  | .obj _ => true

/-- JS strict equality `===`.  Objects and arrays compare by reference;
distinct literals (the only case the claims exercise) are unequal. -/
def jsStrictEq : Value → Value → Bool
  | .undef, .undef => true
  | .null, .null => true
  | .bool a, .bool b => a == b
  | .num a, .num b => a == b
  | .str a, .str b => a == b
  | _, _ => false

mutual
/-- JS `String(v)` coercion. -/
def jsToString : Value → String
  | .undef => "undefined"
  | .null => "null"
  | .bool b => if b then "true" else "false"
  | .num n => toString n
  | .str s => s
  | .arr xs => String.intercalate "," (jsToStringList xs)
  | .obj _ => "[object Object]"

/-- Elements of `Array.prototype.toString`: `null`/`undefined` render empty. -/
def jsToStringList : List Value → List String
  | [] => []
  | .undef :: vs => "" :: jsToStringList vs
  | .null :: vs => "" :: jsToStringList vs
  | v :: vs => jsToString v :: jsToStringList vs
end

/-- JS `Number(v)` coercion, NaN modelled as `none`
(numbers restricted to integers; no claim uses fractional values). -/
def toNumber : Value → Option Int
  | .undef => none
  | .null => some 0
  | .bool b => some (if b then 1 else 0)
  | .num n => some n
  | .str s => let t := s.trim; if t = "" then some 0 else t.toInt?
  | .arr [] => some 0
  | .arr [v] => toNumber v
  | .arr (_ :: _ :: _) => none
  | .obj _ => none

/-- `a > b` after `Number` coercion; comparisons with NaN are false. -/
def jsNumGt (a b : Option Int) : Bool :=
  match a, b with
  | some x, some y => decide (x > y)
  | _, _ => false

/-- `a < b` after `Number` coercion. -/
def jsNumLt (a b : Option Int) : Bool :=
  match a, b with
  | some x, some y => decide (x < y)
  | _, _ => false

/-- `a >= b` after `Number` coercion. -/
def jsNumGe (a b : Option Int) : Bool :=
  match a, b with
  | some x, some y => decide (x ≥ y)
  | _, _ => false

/-- `a <= b` after `Number` coercion. -/
def jsNumLe (a b : Option Int) : Bool :=
  match a, b with
  | some x, some y => decide (x ≤ y)
  | _, _ => false

/-- Substring test, JS `String.prototype.includes`. -/
def strIncludes (s t : String) : Bool :=
  (List.range (s.length + 1)).any fun i =>
    t.data.isPrefixOf (s.data.drop i)

/-- Decimal parse of a JS numeric property key (array/string indexing). -/
def parseIndexAux : List Char → Nat → Option Nat
  | [], acc => some acc
  | c :: rest, acc =>
      if '0' ≤ c ∧ c ≤ '9' then
        parseIndexAux rest (acc * 10 + (c.toNat - '0'.toNat))
      else none

/-- A property key read as an array index, `none` when not numeric. -/
def jsIndex? (k : String) : Option Nat :=
  match k.data with
  | [] => none
  | cs => parseIndexAux cs 0

/-- JS property read `v[k]`.  Throws (models `TypeError`) on `undefined`
and `null`; yields `undefined` on absent keys and on primitives. -/
def getProp : Value → String → Except String Value
  | .undef, _ => .error "TypeError: cannot read properties of undefined"
  | .null, _ => .error "TypeError: cannot read properties of null"
  | .bool _, _ => .ok .undef
  | .num _, _ => .ok .undef
  | .arr xs, k =>
      if k = "length" then .ok (.num xs.length)
      else
        match jsIndex? k with
        | some i => .ok ((xs.get? i).getD .undef)
        | none => .ok .undef
  | .str s, k =>
      if k = "length" then .ok (.num s.length)
      else
        match jsIndex? k with
        | some i =>
            match s.data.get? i with
            | some c => .ok (.str (String.mk [c]))
            | none => .ok .undef
        | none => .ok .undef
  | .obj fs, k => .ok ((lookupKey fs k).getD .undef)

/-! ### conditionalLogic.ts -/

/-- `getNestedValue`'s reducer:
`(current, key) => current && current[key] !== undefined ? current[key] : undefined`.
The `current &&` guard short-circuits before the (throwing) property read. -/
def getNestedValueStep (current : Value) (key : String) : Except String Value :=
  if !truthy current then .ok .undef
  else
    match getProp current key with
    | .error e => .error e
    | .ok propVal =>
        if jsStrictEq propVal .undef then .ok .undef else .ok propVal

/-- `getNestedValue(obj, path)`: split on `.` and reduce. -/
def getNestedValue (o : Value) (path : String) : Except String Value :=
  (path.splitOn ".").foldlM getNestedValueStep o

/-- `getNestedValue` as a total function.  The `.error` branch is
provably unreachable (the resolver never throws; see the C8 theorem). -/
def getNestedValueD (o : Value) (path : String) : Value :=
  match getNestedValue o path with
  | .error _ => .undef
  | .ok v => v

/-- The `ConditionalOperator` union type. -/
inductive ConditionalOperator where
  | equals | notEquals
  | greaterThan | lessThan | greaterThanOrEqual | lessThanOrEqual
  | contains | notContains
  | inOp | notIn
  | isEmpty | isNotEmpty
deriving DecidableEq

/-- The `ConditionalLogic` interface: `value`/`values` optional
(`value` absent is `undefined`). -/
structure ConditionalLogic where
  field : String
  operator : ConditionalOperator
  value : Value := .undef
  values : Option (List Value) := none

/-- `evaluateCondition(condition, formValues)`. -/
def evaluateCondition (condition : ConditionalLogic) (formValues : Value) : Bool :=
  let fieldValue := getNestedValueD formValues condition.field
  match condition.operator with
  | .equals => jsStrictEq fieldValue condition.value
  | .notEquals => !jsStrictEq fieldValue condition.value
  | .greaterThan => jsNumGt (toNumber fieldValue) (toNumber condition.value)
  | .lessThan => jsNumLt (toNumber fieldValue) (toNumber condition.value)
  | .greaterThanOrEqual => jsNumGe (toNumber fieldValue) (toNumber condition.value)
  | .lessThanOrEqual => jsNumLe (toNumber fieldValue) (toNumber condition.value)
  | .contains =>
      match fieldValue with
      | .str s => strIncludes s (jsToString condition.value)
      | .arr xs => xs.any (fun x => jsStrictEq x condition.value)
      | _ => false
  | .notContains =>
      match fieldValue with
      | .str s => !strIncludes s (jsToString condition.value)
      | .arr xs => !xs.any (fun x => jsStrictEq x condition.value)
      | _ => true
  | .inOp =>
      match condition.values with
      | some vs => vs.any (fun x => jsStrictEq x fieldValue)
      | none => false
  | .notIn =>
      match condition.values with
      | some vs => !vs.any (fun x => jsStrictEq x fieldValue)
      | none => true
  | .isEmpty =>
      jsStrictEq fieldValue .null || jsStrictEq fieldValue .undef ||
      jsStrictEq fieldValue (.str "") ||
      (match fieldValue with | .arr xs => xs.length == 0 | _ => false)
  | .isNotEmpty =>
      !jsStrictEq fieldValue .null && !jsStrictEq fieldValue .undef &&
      !jsStrictEq fieldValue (.str "") &&
      (match fieldValue with | .arr xs => decide (xs.length > 0) | _ => true)

/-- The `ComplexConditionalLogic` interface. -/
structure ComplexConditionalLogic where
  and : Option (List ConditionalLogic) := none
  or : Option (List ConditionalLogic) := none
  not : Option ConditionalLogic := none

/-- `evaluateComplexCondition(condition, formValues)`.  A present array is
truthy in JS even when empty, so `some []` takes the corresponding branch. -/
def evaluateComplexCondition (condition : ComplexConditionalLogic)
    (formValues : Value) : Bool :=
  match condition.and with
  | some subs => subs.all fun subCondition => evaluateCondition subCondition formValues
  | none =>
    match condition.or with
    | some subs => subs.any fun subCondition => evaluateCondition subCondition formValues
    | none =>
      match condition.not with
      | some subCondition => !evaluateCondition subCondition formValues
      | none => false

/-- `ConditionalLogic | ComplexConditionalLogic`, discriminated in the
source by `'field' in condition`. -/
inductive CondExpr where
  | simple : ConditionalLogic → CondExpr
  | complex : ComplexConditionalLogic → CondExpr

/-- `evaluateConditionalLogic(condition, formValues)`. -/
def evaluateConditionalLogic : CondExpr → Value → Bool
  | .simple c, formValues => evaluateCondition c formValues
  | .complex c, formValues => evaluateComplexCondition c formValues

/-- `typeof v === 'object' && v !== null` (arrays included). -/
def isObjectType : Value → Bool
  | .obj _ => true
  | .arr _ => true
  | _ => false

/-- Own-property lookup on an object-typed value (`'$k' in v` + read).
Array values carry none of the `$`-keys the caller probes. -/
def getOwn : Value → String → Option Value
  | .obj fs, k => lookupKey fs k
  | _, _ => none

/-- `expected.includes(fieldValue)` for the `$in`/`$notIn` arms; a
non-array operand would throw in JS and is not exercised by any claim. -/
def jsIncludes (v : Value) (x : Value) : Bool :=
  match v with
  | .arr xs => xs.any fun e => jsStrictEq e x
  | _ => false

/-- The emptiness test shared by the `$isEmpty` arm. -/
def simpleIsEmpty (fieldValue : Value) : Bool :=
  jsStrictEq fieldValue .null || jsStrictEq fieldValue .undef ||
  jsStrictEq fieldValue (.str "") ||
  (match fieldValue with | .arr xs => xs.length == 0 | _ => false)

/-- `evaluateSimpleCondition(condition, formValues)`: implicit AND over
the entries, each checked against the `$`-operator object or by `===`. -/
def evaluateSimpleCondition (condition : List (String × Value))
    (formValues : Value) : Bool :=
  condition.all fun entry =>
    let field := entry.1
    let expectedValue := entry.2
    let fieldValue := getNestedValueD formValues field
    if isObjectType expectedValue then
      match getOwn expectedValue "$in" with
      | some inVals => jsIncludes inVals fieldValue
      | none =>
        match getOwn expectedValue "$notIn" with
        | some notInVals => !jsIncludes notInVals fieldValue
        | none =>
          match getOwn expectedValue "$gt" with
          | some gtVal => jsNumGt (toNumber fieldValue) (toNumber gtVal)
          | none =>
            match getOwn expectedValue "$lt" with
            | some ltVal => jsNumLt (toNumber fieldValue) (toNumber ltVal)
            | none =>
              match getOwn expectedValue "$gte" with
              | some gteVal => jsNumGe (toNumber fieldValue) (toNumber gteVal)
              | none =>
                match getOwn expectedValue "$lte" with
                | some lteVal => jsNumLe (toNumber fieldValue) (toNumber lteVal)
                | none =>
                  match getOwn expectedValue "$contains" with
                  | some cVal => strIncludes (jsToString fieldValue) (jsToString cVal)
                  | none =>
                    match getOwn expectedValue "$isEmpty" with
                    | some flag =>
                        if truthy flag then simpleIsEmpty fieldValue
                        else !simpleIsEmpty fieldValue
                    | none => jsStrictEq fieldValue expectedValue
    else jsStrictEq fieldValue expectedValue

/-- The shape `shouldFieldBeVisible` destructures:
`{ conditional?, visibleWhen? }`. -/
structure VisibilityField where
  conditional : Option CondExpr := none
  visibleWhen : Option (List (String × Value)) := none

/-- `shouldFieldBeVisible(field, formValues)`.  A present object is truthy
in JS even when empty, so `some` takes the corresponding branch. -/
def shouldFieldBeVisible (field : VisibilityField) (formValues : Value) : Bool :=
  match field.conditional with
  | some c => evaluateConditionalLogic c formValues
  | none =>
    match field.visibleWhen with
    | some cond => evaluateSimpleCondition cond formValues
    | none => true

/-! ### validation.ts — types -/

/-- `ValidationMessages`: a JS object of message overrides. -/
abbrev Msgs := List (String × String)

/-- A custom predicate.  Its JS type is
`(value) => boolean | string | Promise<boolean | string>`; the function may
also throw (`Except.error`).  `README.md` documents the two-parameter form
`custom(value, formData)`, so the model gives it two parameters; the
compiler's call site supplies only `value` (the second argument is then
`undefined`, by JS missing-argument semantics). -/
abbrev CustomFn := Value → Value → Except String Value

/-- The `ValidationRules` union (all members optional). -/
structure ValidationRules where
  required : Option Bool := none
  minLength : Option Nat := none
  maxLength : Option Nat := none
  min : Option Int := none
  max : Option Int := none
  pattern : Option String := none
  email : Option Bool := none
  minItems : Option Nat := none
  maxItems : Option Nat := none
  custom : Option CustomFn := none

/-- The runtime value of `field.required`.  Its TS type is
`boolean | undefined`, but the spec also discusses function-valued
`required`; at runtime the compiler only consumes it through truthiness. -/
inductive RequiredProp where
  | undef : RequiredProp
  | bool : Bool → RequiredProp
  | fn : (Value → Bool) → RequiredProp

/-- JS truthiness of a `required` property (functions are truthy). -/
def RequiredProp.truthy : RequiredProp → Bool
  | .undef => false
  | .bool b => b
  | .fn _ => true

/-- The `FieldType` union (`group` is a separate, non-field entry). -/
inductive FieldType where
  | text | email | password | url | tel | textarea
  | number | checkbox
  | date | datetimeLocal | time
  | select | radio | file | hidden | custom
  | array | object
deriving DecidableEq

/-- `FormField` (the members the validation compiler reads).
`subfields` carries `ObjectField.fields`; array-item schemas
(`ArrayField.itemSchema`) are not modelled — no claim concerns them. -/
structure FormField where
  name : String
  ftype : FieldType
  required : RequiredProp := .undef
  validation : Option ValidationRules := none
  validationMessages : Option Msgs := none
  subfields : List FormField := []

/-- Regex matching abstracted: `test pattern value` models
`new RegExp(pattern).test(value)`, `email value` models yup's built-in
email regex.  No claim depends on a particular matcher. -/
structure RegexEngine where
  test : String → String → Bool
  email : String → Bool

/-- A matcher that rejects everything, used to instantiate examples that
contain no `pattern`/`email` rule. -/
def noRegex : RegexEngine := ⟨fun _ _ => false, fun _ => false⟩

/-- The base kind of a compiled yup schema. -/
inductive BaseKind where
  | str | num | bool | date | mixed | arr | obj
deriving DecidableEq

/-- One compiled yup test: a name, the message resolved at compile time
(yup's `${min}`/`${max}` interpolation already applied), and the check,
which may throw (`Except.error` models a test rejecting with a
non-`ValidationError`). -/
structure CompiledTest where
  name : String
  message : String
  check : Value → Except String Bool

/-- A compiled yup field schema: base kind, chained tests, and the
`required(message)` marker when present. -/
structure CompiledSchema where
  base : BaseKind
  tests : List CompiledTest
  requiredMsg : Option String := none

/-! ### validation.ts — message resolution -/

/-- `DEFAULT_VALIDATION_MESSAGES`. -/
def DEFAULT_VALIDATION_MESSAGES : Msgs :=
  [("required", "This field is required"),
   ("minLength", "Must be at least ${min} characters"),
   ("maxLength", "Must be no more than ${max} characters"),
   ("min", "Must be at least ${min}"),
   ("max", "Must be no more than ${max}"),
   ("pattern", "Invalid format"),
   ("email", "Must be a valid email address"),
   ("custom", "Invalid value"),
   ("minItems", "Must have at least ${min} items"),
   ("maxItems", "Must have no more than ${max} items")]

/-- JS `a || b` on possibly-missing strings: the empty string is falsy. -/
def jsOrS (a b : Option String) : Option String :=
  match a with
  | some s => if s = "" then b else some s
  | none => b

/-- `getValidationMessage(key, fieldMessages?, globalMessages?)`:
`fieldMessages?.[key] || globalMessages?.[key] || DEFAULT[key]`, with the
template-literal fallback when the whole chain is falsy. -/
def getValidationMessage (key : String)
    (fieldMessages globalMessages : Option Msgs) : String :=
  let message :=
    jsOrS (fieldMessages.bind fun m => lookupKey m key)
      (jsOrS (globalMessages.bind fun m => lookupKey m key)
        (lookupKey DEFAULT_VALIDATION_MESSAGES key))
  match message with
  | some s => if s = "" then "Validation failed for " ++ key else s
  | none => "Validation failed for " ++ key

/-! ### validation.ts — schema compilation -/

/-- `value == null` in yup (`isAbsent`): `undefined` or `null`. -/
def isAbsent : Value → Bool
  | .undef => true
  | .null => true
  | _ => false

/-- Replace the first occurrence of `pat` in a character list (the
template messages contain each parameter at most once). -/
def replaceFirstAux (pat rep : List Char) : List Char → List Char
  | [] => []
  | c :: rest =>
      if pat.isPrefixOf (c :: rest) then rep ++ List.drop pat.length (c :: rest)
      else c :: replaceFirstAux pat rep rest

/-- yup's `${min}`/`${max}` message interpolation, applied eagerly. -/
def interpolate (param : String) (rep : String) (message : String) : String :=
  String.mk (replaceFirstAux ("$\x7b" ++ param ++ "\x7d").data rep.data message.data)

/-- `applyValidationRules(schema, rules, messages)`.  Each branch appends
the corresponding yup test; `messages` is the single messages object the
source passes down (note: `getValidationMessage` is called here with only
one messages argument, so there is no second-level fallback).  The checks
are yup v1.4's built-ins; the custom check is the source's
`async function(value) { const result = await rules.custom!(value);
return typeof result === 'boolean' ? result : false; }` — invoked with a
single argument and collapsing non-boolean results to `false`. -/
def applyValidationRules (re : RegexEngine) (schema : CompiledSchema)
    (rules : ValidationRules) (messages : Option Msgs) : CompiledSchema :=
  let tests := schema.tests
  -- String-specific validations
  let tests :=
    if schema.base = .str then
      let tests :=
        match rules.minLength with
        | some n =>
            tests ++ [⟨"min",
              interpolate "min" (toString n) (getValidationMessage "minLength" messages none),
              fun v => .ok (isAbsent v ||
                (match v with | .str s => decide (s.length ≥ n) | _ => true))⟩]
        | none => tests
      let tests :=
        match rules.maxLength with
        | some n =>
            tests ++ [⟨"max",
              interpolate "max" (toString n) (getValidationMessage "maxLength" messages none),
              fun v => .ok (isAbsent v ||
                (match v with | .str s => decide (s.length ≤ n) | _ => true))⟩]
        | none => tests
      let tests :=
        match rules.pattern with
        | some p =>
            if p = "" then tests  -- `if (rules.pattern)`: '' is falsy
            else
              tests ++ [⟨"matches",
                getValidationMessage "pattern" messages none,
                fun v => .ok (isAbsent v ||
                  (match v with | .str s => re.test p s | _ => true))⟩]
        | none => tests
      let tests :=
        match rules.email with
        | some true =>
            tests ++ [⟨"email",
              getValidationMessage "email" messages none,
              fun v => .ok (isAbsent v ||
                (match v with | .str s => s == "" || re.email s | _ => true))⟩]
        | _ => tests
      tests
    else tests
  -- Number-specific validations
  let tests :=
    if schema.base = .num then
      let tests :=
        match rules.min with
        | some n =>
            tests ++ [⟨"min",
              interpolate "min" (toString n) (getValidationMessage "min" messages none),
              fun v => .ok (isAbsent v ||
                (match v with | .num x => decide (x ≥ n) | _ => true))⟩]
        | none => tests
      let tests :=
        match rules.max with
        | some n =>
            tests ++ [⟨"max",
              interpolate "max" (toString n) (getValidationMessage "max" messages none),
              fun v => .ok (isAbsent v ||
                (match v with | .num x => decide (x ≤ n) | _ => true))⟩]
        | none => tests
      tests
    else tests
  -- Array-specific validations
  let tests :=
    if schema.base = .arr then
      let tests :=
        match rules.minItems with
        | some n =>
            tests ++ [⟨"min",
              interpolate "min" (toString n) (getValidationMessage "minItems" messages none),
              fun v => .ok (isAbsent v ||
                (match v with | .arr xs => decide (xs.length ≥ n) | _ => true))⟩]
        | none => tests
      let tests :=
        match rules.maxItems with
        | some n =>
            tests ++ [⟨"max",
              interpolate "max" (toString n) (getValidationMessage "maxItems" messages none),
              fun v => .ok (isAbsent v ||
                (match v with | .arr xs => decide (xs.length ≤ n) | _ => true))⟩]
        | none => tests
      tests
    else tests
  -- Custom validation: the predicate is called with ONE argument, so its
  -- second parameter receives `undefined`; a non-boolean result becomes
  -- `false` and the message stays the one resolved from the 'custom' key.
  let tests :=
    match rules.custom with
    | some f =>
        tests ++ [⟨"custom",
          getValidationMessage "custom" messages none,
          fun value =>
            match f value .undef with
            | .error e => .error e
            | .ok result =>
                .ok (match result with | .bool b => b | _ => false)⟩]
    | none => tests
  { schema with tests := tests }

/-- `field.required || field.validation?.required`, by JS truthiness. -/
def requiredEnabled (field : FormField) : Bool :=
  field.required.truthy ||
    (match field.validation with
     | some r => r.required.getD false
     | none => false)

/-- The base-schema switch on `field.type`. -/
def baseKindOf : FieldType → BaseKind
  | .text | .email | .password | .url | .tel | .textarea => .str
  | .number => .num
  | .checkbox => .bool
  | .date | .datetimeLocal | .time => .date
  | .select | .radio => .mixed
  | .file => .mixed
  | .array => .arr
  | .object => .obj
  | .hidden | .custom => .mixed

/-- `createFieldValidationSchema(field, customMessages)`.  Note the two
asymmetric message paths of the source: rule messages are resolved against
`field.validationMessages || customMessages` (object-level choice), while
the required message is resolved per key against both levels. -/
def createFieldValidationSchema (re : RegexEngine) (field : FormField)
    (customMessages : Option Msgs) : CompiledSchema :=
  let schema : CompiledSchema := ⟨baseKindOf field.ftype, [], none⟩
  let schema :=
    match field.validation with
    | some rules =>
        applyValidationRules re schema rules
          (match field.validationMessages with
           | some m => some m
           | none => customMessages)
    | none => schema
  if requiredEnabled field then
    { schema with
      requiredMsg :=
        some (getValidationMessage "required" field.validationMessages customMessages) }
  else schema

/-- A compiled entry of the form-level shape: a plain field schema or a
nested `yup.object().shape(...)` built for an object field.  For array
fields the source emits `yup.array().of(itemSchema)`; the item schema is
not modelled (no claim concerns array fields), leaving a bare array base. -/
inductive CompiledEntry where
  | leaf : CompiledSchema → CompiledEntry
  | objectShape : List (String × CompiledSchema) → CompiledEntry

/-- The shape entry `processFields` assigns for one (non-group) field. -/
def fieldShapeEntry (re : RegexEngine) (customMessages : Option Msgs)
    (field : FormField) : String × CompiledEntry :=
  if field.ftype = .array then
    (field.name, .leaf ⟨.arr, [], none⟩)
  else if field.ftype = .object then
    (field.name,
     .objectShape (field.subfields.map fun subField =>
       (subField.name, createFieldValidationSchema re subField customMessages)))
  else
    (field.name, .leaf (createFieldValidationSchema re field customMessages))

/-- Top-level schema entries: regular fields or groups
(`FieldGroup.fields` holds plain `FormField`s). -/
inductive SchemaEntry where
  | field : FormField → SchemaEntry
  | group : List FormField → SchemaEntry

/-- `FormSchema` (the member the validator reads). -/
structure FormSchema where
  fields : List SchemaEntry

/-- `createFormValidationSchema(schema, customMessages)`: `processFields`
walks the entries, recursing through groups, and assigns
`shape[field.name] = ...`. -/
def createFormValidationSchema (re : RegexEngine) (schema : FormSchema)
    (customMessages : Option Msgs) : List (String × CompiledEntry) :=
  schema.fields.foldl
    (fun shape entry =>
      match entry with
      | .field f =>
          let e := fieldShapeEntry re customMessages f
          jsObjSet shape e.1 e.2
      | .group fs =>
          fs.foldl
            (fun sh f =>
              let e := fieldShapeEntry re customMessages f
              jsObjSet sh e.1 e.2)
            shape)
    []

/-! ### yup v1.4 runtime semantics for the compiled schemas -/

/-- yup presence (`_isPresent`): strings additionally require
non-emptiness, so `string().required()` rejects `''`. -/
def isPresent (base : BaseKind) (v : Value) : Bool :=
  match base with
  | .str => match v with
            | .undef => false
            | .null => false
            | .str s => s != ""
            | _ => true
  | _ => !isAbsent v

/-- yup cast + type check.  `undefined` passes through; `null` raises the
type error on non-mixed schemas (none of the compiled schemas is
`nullable()`); primitives cast per yup v1.4.  Date parsing is abstracted
(no claim concerns date fields); failures model yup's `TypeError`
ValidationError, whose message text no claim depends on. -/
def castValue (base : BaseKind) (v : Value) : Except String Value :=
  match base, v with
  | _, .undef => .ok .undef
  | .mixed, x => .ok x
  | _, .null => .error "typeError"
  | .str, .str s => .ok (.str s)
  | .str, x => .ok (.str (jsToString x))
  | .num, .num n => .ok (.num n)
  | .num, .str s =>
      (match toNumber (.str s) with
       | some n => .ok (.num n)
       | none => .error "typeError")
  | .num, _ => .error "typeError"
  | .bool, .bool b => .ok (.bool b)
  | .bool, .str "true" => .ok (.bool true)
  | .bool, .str "false" => .ok (.bool false)
  | .bool, _ => .error "typeError"
  | .date, .num n => .ok (.num n)
  | .date, .str s => .ok (.str s)
  | .date, _ => .error "typeError"
  | .arr, .arr xs => .ok (.arr xs)
  | .arr, _ => .error "typeError"
  | .obj, .obj fs => .ok (.obj fs)
  | .obj, _ => .error "typeError"

/-- The initial presence errors (yup runs `required` before the chained
tests and skips the rest when it fails). -/
def presenceErrors (s : CompiledSchema) (cv : Value) : List String :=
  match s.requiredMsg with
  | some m => if isPresent s.base cv then [] else [m]
  | none => []

/-- Run every chained test, collecting failures (`abortEarly: false`).
A test that throws a non-`ValidationError` panics the whole run
(yup's `panic` path), which `Except.error` models. -/
def runTests : List CompiledTest → Value → Except String (List String)
  | [], _ => .ok []
  | t :: ts, v => do
      let pass ← t.check v
      let rest ← runTests ts v
      pure (if pass then rest else t.message :: rest)

/-- Run the chained tests stopping at the first failure
(`abortEarly: true`, the default of `schema.validate`). -/
def runTestsAbort : List CompiledTest → Value → Except String (Option String)
  | [], _ => .ok none
  | t :: ts, v => do
      let pass ← t.check v
      if pass then runTestsAbort ts v else pure (some t.message)

/-- `schema.validate(value, { abortEarly: false })` on one field schema:
the list of failure messages, or `Except.error` when a test panicked.
Type errors and presence failures short-circuit the chained tests. -/
def validateValueCollect (s : CompiledSchema) (v : Value) :
    Except String (List String) :=
  match castValue s.base v with
  | .error m => .ok [m]
  | .ok cv =>
      match presenceErrors s cv with
      | [] => runTests s.tests cv
      | errs => .ok errs

/-- `schema.validate(value)` (abort-early) on one field schema:
`none` when valid, first failure message, or a panic. -/
def validateValueAbort (s : CompiledSchema) (v : Value) :
    Except String (Option String) :=
  match castValue s.base v with
  | .error m => .ok (some m)
  | .ok cv =>
      match presenceErrors s cv with
      | [] => runTestsAbort s.tests cv
      | m :: _ => .ok (some m)

/-- `validateFieldValue(fieldName, value, field, customMessages)`:
compile the field schema, validate, return `null` on success, the
`ValidationError` message on failure, and the literal `'Validation error'`
when the thrown error is not a `ValidationError`. -/
def validateFieldValue (re : RegexEngine) (fieldName : String) (value : Value)
    (field : FormField) (customMessages : Option Msgs) : Option String :=
  let fieldSchema := createFieldValidationSchema re field customMessages
  match validateValueAbort fieldSchema value with
  | .error _ => some "Validation error"
  | .ok r => r

/-- Validation of the sub-schemas of one object-field entry: each
sub-field is validated against `value[subName]`, errors carry the dotted
path.  A non-object value is validated as yup's empty-object default. -/
def collectObjectErrors (name : String)
    (subs : List (String × CompiledSchema)) (value : Value) :
    Except String (List (String × String)) :=
  match subs with
  | [] => .ok []
  | (subName, s) :: rest => do
      let errs ← validateValueCollect s ((getOwn value subName).getD .undef)
      let restErrs ← collectObjectErrors name rest value
      pure (errs.map (fun m => (name ++ "." ++ subName, m)) ++ restErrs)

/-- Validation of one shape entry against the form data: the inner
`ValidationError`s as `(path, message)` pairs, or a panic. -/
def validateEntry (name : String) (entry : CompiledEntry)
    (data : List (String × Value)) : Except String (List (String × String)) :=
  let value := (lookupKey data name).getD .undef
  match entry with
  | .leaf s => (validateValueCollect s value).map (List.map fun m => (name, m))
  | .objectShape subs => collectObjectErrors name subs value

/-- `objectSchema.validate(data, { abortEarly: false })`: every entry of
the shape is validated; all inner errors are aggregated; any panic rejects
the whole validation with the raw (non-`ValidationError`) error. -/
def collectFormErrors (shape : List (String × CompiledEntry))
    (data : List (String × Value)) : Except String (List (String × String)) :=
  match shape with
  | [] => .ok []
  | (name, entry) :: rest => do
      let errs ← validateEntry name entry data
      let restErrs ← collectFormErrors rest data
      pure (errs ++ restErrs)

/-- `error.inner.forEach(err => { errors[err.path] = err.message })`. -/
def buildErrorMap (inner : List (String × String)) : List (String × String) :=
  inner.foldl (fun errs pm => jsObjSet errs pm.1 pm.2) []

/-- `validateFormData(data, schema, customMessages)`: builds the form
schema, validates with `abortEarly: false`, and harvests `error.inner`
into the error map.  When the rejection is not a `ValidationError`
(a panicked test), the `instanceof` guard fails and the function returns
the error map still empty. -/
def validateFormData (re : RegexEngine) (data : List (String × Value))
    (schema : FormSchema) (customMessages : Option Msgs) :
    List (String × String) :=
  let validationSchema := createFormValidationSchema re schema customMessages
  match collectFormErrors validationSchema data with
  | .error _ => []
  | .ok inner => buildErrorMap inner

/-! ### Concrete schemas used by the claims -/

/-- The cross-field custom rule of the scenario:
`(end, all) => end > all.start || "must be after start"`.
Reading `.start` throws when `all` is `undefined`. -/
def crossFieldEndAfterStart : CustomFn := fun endV allV =>
  match getProp allV "start" with
  | .error e => .error e
  | .ok startV =>
      let gt := Value.bool (jsNumGt (toNumber endV) (toNumber startV))
      .ok (if truthy gt then gt else .str "must be after start")

/-- A number field `end` carrying the cross-field custom rule. -/
def endField : FormField :=
  { name := "end", ftype := .number,
    validation := some { custom := some crossFieldEndAfterStart },
    subfields := [] }

/-- A custom predicate that returns a string error message
(the README's `isUnique || "Username is already taken"` pattern). -/
def usernameTakenCustom : CustomFn := fun _ _ =>
  .ok (.str "Username is already taken")

/-- A text field whose custom rule reports via a returned string. -/
def usernameField : FormField :=
  { name := "username", ftype := .text,
    validation := some { custom := some usernameTakenCustom },
    subfields := [] }

/-- A field whose `required` is a predicate over the form values. -/
def requiredFnField (g : Value → Bool) : FormField :=
  { name := "maybe", ftype := .text, required := .fn g, subfields := [] }

/-- An async custom predicate that throws (e.g. a failed network call). -/
def throwingCustom : CustomFn := fun _ _ => .error "network error"

/-- Field `a`: its custom rule throws when invoked. -/
def fieldAThrow : FormField :=
  { name := "a", ftype := .text,
    validation := some { custom := some throwingCustom },
    subfields := [] }

/-- Field `b`: plain `minLength: 3` rule. -/
def fieldBMin : FormField :=
  { name := "b", ftype := .text, validation := some { minLength := some 3 },
    subfields := [] }

/-- A form with a throwing custom field and an ordinary failing field. -/
def schemaThrowPlusMin : FormSchema := ⟨[.field fieldAThrow, .field fieldBMin]⟩

/-- The same form without the throwing field. -/
def schemaMinOnly : FormSchema := ⟨[.field fieldBMin]⟩

/-- Data violating both fields of `schemaThrowPlusMin`. -/
def dataThrowPlusMin : List (String × Value) := [("a", .str "x"), ("b", .str "y")]

/-- A field with a `minLength` rule and a field-level messages object
that carries only a `required` entry. -/
def fieldShadowed : FormField :=
  { name := "u", ftype := .text,
    validation := some { minLength := some 3 },
    validationMessages := some [("required", "Field R")],
    subfields := [] }

/-- Form-level overrides carrying a `minLength` message. -/
def formOverrides : Option Msgs := some [("minLength", "Form ML")]

/-- Witness form for aggregation: two text fields with `minLength`. -/
def fieldAW : FormField :=
  { name := "a", ftype := .text, validation := some { minLength := some 3 },
    subfields := [] }

/-- Second witness field. -/
def fieldBW : FormField :=
  { name := "b", ftype := .text, validation := some { minLength := some 5 },
    subfields := [] }

/-- Witness schema with the two fields. -/
def schemaW : FormSchema := ⟨[.field fieldAW, .field fieldBW]⟩

/-- Witness data violating both `minLength` rules. -/
def dataW : List (String × Value) := [("a", .str "x"), ("b", .str "yy")]

/-- The compiled schema of the first witness field. -/
def saW : CompiledSchema := createFieldValidationSchema noRegex fieldAW none

/-- The compiled schema of the second witness field. -/
def sbW : CompiledSchema := createFieldValidationSchema noRegex fieldBW none

/-! ## Theorems -/

/-- `Except` bind on a success. -/
theorem ok_bind {ε α β : Type} (a : α) (f : α → Except ε β) :
    (Except.ok a >>= f : Except ε β) = f a := rfl

/-- `Except` bind on a failure. -/
theorem error_bind {ε α β : Type} (e : ε) (f : α → Except ε β) :
    (Except.error e >>= f : Except ε β) = Except.error e := rfl

/-- `lookupKey` only returns members. -/
theorem lookupKey_mem {α : Type} (l : List (String × α)) (k : String) (v : α)
    (h : lookupKey l k = some v) : (k, v) ∈ l := by
  induction l with
  | nil => simp [lookupKey] at h
  | cons p rest ih =>
      obtain ⟨k', w⟩ := p
      simp only [lookupKey] at h
      split at h
      · next heq =>
          obtain rfl : w = v := by injection h
          subst heq
          exact List.mem_cons_self _ _
      · exact List.mem_cons_of_mem _ (ih h)

/-- Updating a key makes it readable. -/
theorem lookupKey_jsObjSet_self {α : Type} (l : List (String × α))
    (k : String) (v : α) : lookupKey (jsObjSet l k v) k = some v := by
  induction l with
  | nil => simp [jsObjSet, lookupKey]
  | cons p rest ih =>
      obtain ⟨k', w⟩ := p
      simp only [jsObjSet]
      split
      · simp [lookupKey]
      · next hne =>
          simp only [lookupKey]
          split
          · next heq => exact absurd heq hne
          · exact ih

/-- Updating one key leaves the others unchanged. -/
theorem lookupKey_jsObjSet_other {α : Type} (l : List (String × α))
    (k a : String) (v : α) (h : a ≠ k) :
    lookupKey (jsObjSet l k v) a = lookupKey l a := by
  induction l with
  | nil => simp [jsObjSet, lookupKey, Ne.symm h]
  | cons p rest ih =>
      obtain ⟨k', w⟩ := p
      simp only [jsObjSet]
      split
      · next heq =>
          subst heq
          simp only [lookupKey]
          split
          · next heq2 => exact absurd heq2.symm h
          · rfl
      · simp only [lookupKey]
        split
        · rfl
        · exact ih

/-- A truthy value supports property reads without throwing
(`getProp` only errors on `undefined`/`null`, which are falsy). -/
theorem getProp_isOk (cur : Value) (k : String) (h : truthy cur = true) :
    ∃ p, getProp cur k = Except.ok p := by
  cases cur with
  | undef => simp [truthy] at h
  | null => simp [truthy] at h
  | bool b => exact ⟨_, rfl⟩
  | num n => exact ⟨_, rfl⟩
  | str s =>
      simp only [getProp]
      split
      · exact ⟨_, rfl⟩
      · split
        · split
          · exact ⟨_, rfl⟩
          · exact ⟨_, rfl⟩
        · exact ⟨_, rfl⟩
  | arr xs =>
      simp only [getProp]
      split
      · exact ⟨_, rfl⟩
      · split
        · exact ⟨_, rfl⟩
        · exact ⟨_, rfl⟩
  | obj fs => exact ⟨_, rfl⟩

/-- One reducer step of `getNestedValue` never throws. -/
theorem getNestedValueStep_ok (cur : Value) (k : String) :
    ∃ v, getNestedValueStep cur k = Except.ok v := by
  unfold getNestedValueStep
  split
  · exact ⟨_, rfl⟩
  · next h =>
      have ht : truthy cur = true := by
        revert h
        cases truthy cur <;> simp
      obtain ⟨p, hp⟩ := getProp_isOk cur k ht
      rw [hp]
      dsimp only
      split
      · exact ⟨_, rfl⟩
      · exact ⟨_, rfl⟩

/-- The whole reduce over any key list never throws. -/
theorem foldlM_getNestedValueStep_ok (keys : List String) :
    ∀ cur : Value, ∃ v, List.foldlM getNestedValueStep cur keys = Except.ok v := by
  induction keys with
  | nil => intro cur; exact ⟨cur, rfl⟩
  | cons k ks ih =>
      intro cur
      obtain ⟨p, hp⟩ := getNestedValueStep_ok cur k
      obtain ⟨v, hv⟩ := ih p
      refine ⟨v, ?_⟩
      rw [List.foldlM_cons, hp]
      exact hv

/-- Peeling one key off the reduce once its step result is known. -/
theorem foldlM_step_cons (cur : Value) (k : String) (keys : List String)
    (p : Value) (h : getNestedValueStep cur k = Except.ok p) :
    List.foldlM getNestedValueStep cur (k :: keys)
      = List.foldlM getNestedValueStep p keys := by
  rw [List.foldlM_cons, h]
  rfl

/-- C6: for every field path, every `condition.value`/`condition.values`
payload and every values snapshot (covering `0`, `false`, `[]`, `''`,
`null`, `undefined` at the path), evaluating the condition with operator
`isNotEmpty` is the exact boolean negation of evaluating it with
operator `isEmpty`. -/
theorem evaluateCondition_isEmpty_isNotEmpty_negation
    (path : String) (cv : Value) (cvs : Option (List Value)) (vals : Value) :
    evaluateCondition ⟨path, .isNotEmpty, cv, cvs⟩ vals
      = !evaluateCondition ⟨path, .isEmpty, cv, cvs⟩ vals := by
  simp only [evaluateCondition]
  cases getNestedValueD vals path with
  | undef => rfl
  | null => rfl
  | bool b => rfl
  | num n => rfl
  | str s =>
      by_cases h : s = "" <;> simp [jsStrictEq, h]
  | arr xs => cases xs <;> simp [jsStrictEq]
  | obj fs => rfl

/-- C7: for every values snapshot, the empty `and` list evaluates to
`true` (vacuous conjunction) and the empty `or` list evaluates to `false`
(empty disjunction): `evaluateComplexCondition` treats them as the
identity elements. -/
theorem evaluateComplexCondition_empty_and_or (vals : Value) :
    evaluateComplexCondition ⟨some [], none, none⟩ vals = true ∧
    evaluateComplexCondition ⟨none, some [], none⟩ vals = false :=
  ⟨rfl, rfl⟩

/-- C8: the path resolver never throws — for every snapshot and every
dot-separated path it produces a value (never an exception), and it
yields `undefined` for `"a.b.c"` as soon as `a` is absent, `a` is
present but not a traversable container, or `a.b` is absent. -/
theorem getNestedValue_never_throws_returns_undefined :
    (∀ (o : Value) (path : String), ∃ v, getNestedValue o path = Except.ok v) ∧
    (∀ fields, lookupKey fields "a" = none →
        getNestedValue (.obj fields) "a.b.c" = Except.ok .undef) ∧
    (∀ fields av, lookupKey fields "a" = some av → isObjectType av = false →
        getNestedValue (.obj fields) "a.b.c" = Except.ok .undef) ∧
    (∀ fields bfields, lookupKey fields "a" = some (.obj bfields) →
        lookupKey bfields "b" = none →
        getNestedValue (.obj fields) "a.b.c" = Except.ok .undef) := by
  have hsplit : "a.b.c".splitOn "." = ["a", "b", "c"] := by
    simp +decide [String.splitOn, String.splitOnAux]
  refine ⟨fun o path => foldlM_getNestedValueStep_ok _ o, ?_, ?_, ?_⟩
  · intro fields h
    unfold getNestedValue
    rw [hsplit,
      foldlM_step_cons _ _ _ .undef
        (by simp [getNestedValueStep, getProp, truthy, h, jsStrictEq])]
    rfl
  · intro fields av h hc
    unfold getNestedValue
    rw [hsplit,
      foldlM_step_cons _ _ _ (if jsStrictEq av .undef then .undef else av)
        (by simp [getNestedValueStep, getProp, truthy, h, apply_ite]
            split <;> simp_all)]
    cases av with
    | undef => rfl
    | null => rfl
    | bool b => cases b <;> rfl
    | num n =>
        by_cases hn : n = 0
        · subst hn; rfl
        · show List.foldlM getNestedValueStep (.num n) ["b", "c"] = Except.ok .undef
          rw [foldlM_step_cons _ _ _ .undef
            (by simp [getNestedValueStep, truthy, getProp, jsStrictEq, hn])]
          rfl
    | str s =>
        by_cases hs : s = ""
        · subst hs; rfl
        · show List.foldlM getNestedValueStep (.str s) ["b", "c"] = Except.ok .undef
          rw [foldlM_step_cons _ _ _ .undef
            (by simp [getNestedValueStep, truthy, getProp, jsStrictEq, hs,
                  jsIndex?, parseIndexAux])]
          rfl
    | arr xs => simp [isObjectType] at hc
    | obj fs => simp [isObjectType] at hc
  · intro fields bfields h hb
    unfold getNestedValue
    rw [hsplit,
      foldlM_step_cons _ _ _ (.obj bfields)
        (by simp [getNestedValueStep, getProp, truthy, h, jsStrictEq]),
      foldlM_step_cons _ _ _ .undef
        (by simp [getNestedValueStep, getProp, truthy, hb, jsStrictEq])]
    rfl

/-- C8 witness: the three hypothesis-bearing conjuncts applied to the
concrete snapshots `{}` (a absent), `{a: 5}` (a not a container) and
`{a: {x: 1}}` (a.b absent). -/
theorem getNestedValue_never_throws_witness :
    getNestedValue (.obj []) "a.b.c" = Except.ok .undef ∧
    getNestedValue (.obj [("a", .num 5)]) "a.b.c" = Except.ok .undef ∧
    getNestedValue (.obj [("a", .obj [("x", .num 1)])]) "a.b.c"
      = Except.ok .undef :=
  ⟨getNestedValue_never_throws_returns_undefined.2.1 [] rfl,
   getNestedValue_never_throws_returns_undefined.2.2.1 [("a", .num 5)]
     (.num 5) rfl rfl,
   getNestedValue_never_throws_returns_undefined.2.2.2
     [("a", .obj [("x", .num 1)])] [("x", .num 1)] rfl rfl⟩

/-- C10: a field with `visibleWhen = {}` and no `conditional` is visible
for every values snapshot — the simple-syntax evaluator treats the empty
mapping as a vacuously true implicit AND. -/
theorem shouldFieldBeVisible_empty_visibleWhen (vals : Value) :
    shouldFieldBeVisible ⟨none, some []⟩ vals = true := rfl

/-- When the whole form validation succeeds without a panic, every shape
entry validated successfully and its errors all appear in the aggregate. -/
theorem collectFormErrors_entry (data : List (String × Value)) :
    ∀ (shape : List (String × CompiledEntry)) (inner : List (String × String)),
      collectFormErrors shape data = Except.ok inner →
      ∀ n e, (n, e) ∈ shape →
        ∃ errs, validateEntry n e data = Except.ok errs ∧
          ∀ x ∈ errs, x ∈ inner := by
  intro shape
  induction shape with
  | nil =>
      intro inner _ n e hmem
      simp at hmem
  | cons p rest ih =>
      intro inner h n e hmem
      obtain ⟨n', e'⟩ := p
      simp only [collectFormErrors] at h
      cases h1 : validateEntry n' e' data with
      | error err =>
          rw [h1, error_bind] at h
          exact absurd h (by simp)
      | ok errs1 =>
          rw [h1, ok_bind] at h
          cases h2 : collectFormErrors rest data with
          | error err =>
              rw [h2, error_bind] at h
              exact absurd h (by simp)
          | ok rest1 =>
              rw [h2, ok_bind] at h
              obtain rfl : errs1 ++ rest1 = inner := by injection h
              rcases List.mem_cons.mp hmem with heq | htail
              · cases heq
                exact ⟨errs1, h1, fun x hx => List.mem_append_left _ hx⟩
              · obtain ⟨errs, hval, hsub⟩ := ih rest1 h2 n e htail
                exact ⟨errs, hval, fun x hx => List.mem_append_right _ (hsub x hx)⟩

/-- Folding `jsObjSet` over the inner errors keeps every key present. -/
theorem foldl_jsObjSet_isSome (l : List (String × String)) :
    ∀ (init : List (String × String)) (a : String),
      ((∃ m, (a, m) ∈ l) ∨ (lookupKey init a).isSome = true) →
      (lookupKey (l.foldl (fun errs pm => jsObjSet errs pm.1 pm.2) init) a).isSome
        = true := by
  induction l with
  | nil =>
      intro init a h
      rcases h with ⟨m, hm⟩ | h
      · simp at hm
      · simpa using h
  | cons pm rest ih =>
      intro init a h
      rw [List.foldl_cons]
      apply ih
      by_cases hk : a = pm.1
      · right
        subst hk
        rw [lookupKey_jsObjSet_self]
        rfl
      · rcases h with ⟨m, hm⟩ | h
        · rcases List.mem_cons.mp hm with heq | htail
          · exact absurd (congrArg Prod.fst heq) hk
          · exact Or.inl ⟨m, htail⟩
        · right
          rw [lookupKey_jsObjSet_other _ _ _ _ hk]
          exact h

/-- C5: whole-form validation aggregates instead of aborting — whenever
two distinct fields of the compiled shape each fail their own validation
(and no rule panics), the error map returned by `validateFormData`
contains an entry for both field paths. -/
theorem validateFormData_reports_all_failing_fields
    (re : RegexEngine) (schema : FormSchema) (cm : Option Msgs)
    (data : List (String × Value)) (a b : String) (sa sb : CompiledSchema)
    (mA mB : String) (restA restB : List String)
    (inner : List (String × String))
    (hab : a ≠ b)
    (ha : lookupKey (createFormValidationSchema re schema cm) a
            = some (.leaf sa))
    (hb : lookupKey (createFormValidationSchema re schema cm) b
            = some (.leaf sb))
    (hva : validateValueCollect sa ((lookupKey data a).getD .undef)
            = Except.ok (mA :: restA))
    (hvb : validateValueCollect sb ((lookupKey data b).getD .undef)
            = Except.ok (mB :: restB))
    (hok : collectFormErrors (createFormValidationSchema re schema cm) data
            = Except.ok inner) :
    (lookupKey (validateFormData re data schema cm) a).isSome = true ∧
    (lookupKey (validateFormData re data schema cm) b).isSome = true := by
  have hvfd : validateFormData re data schema cm = buildErrorMap inner := by
    simp only [validateFormData]
    rw [hok]
  have key_present : ∀ (k : String) (sk : CompiledSchema) (mk : String)
      (restk : List String),
      lookupKey (createFormValidationSchema re schema cm) k = some (.leaf sk) →
      validateValueCollect sk ((lookupKey data k).getD .undef)
        = Except.ok (mk :: restk) →
      (lookupKey (validateFormData re data schema cm) k).isSome = true := by
    intro k sk mk restk hk hvk
    have hmem := lookupKey_mem _ _ _ hk
    obtain ⟨errs, hval, hsub⟩ := collectFormErrors_entry data _ inner hok k _ hmem
    have hval2 : validateEntry k (.leaf sk) data
        = Except.ok ((mk :: restk).map fun m => (k, m)) := by
      simp only [validateEntry]
      rw [hvk]
      rfl
    rw [hval2] at hval
    obtain rfl : (mk :: restk).map (fun m => (k, m)) = errs := by injection hval
    have hmemk : (k, mk) ∈ inner := hsub (k, mk) (by simp)
    rw [hvfd]
    unfold buildErrorMap
    exact foldl_jsObjSet_isSome inner [] k (Or.inl ⟨mk, hmemk⟩)
  exact ⟨key_present a sa mA restA ha hva, key_present b sb mB restB hb hvb⟩

/-- C5 witness: the aggregation theorem applied to a concrete form whose
two fields `a` and `b` both violate their `minLength` rules. -/
theorem validateFormData_reports_all_failing_fields_witness :
    (lookupKey (validateFormData noRegex dataW schemaW none) "a").isSome = true ∧
    (lookupKey (validateFormData noRegex dataW schemaW none) "b").isSome = true :=
  validateFormData_reports_all_failing_fields noRegex schemaW none dataW
    "a" "b" saW sbW
    "Must be at least 3 characters" "Must be at least 5 characters" [] [] _
    (by decide) rfl rfl rfl rfl rfl

/-- C1 (divergence evidence): the compiled custom validator invokes the
predicate with only the field's value, so the cross-field rule
`(end, all) => end > all.start || "must be after start"` receives
`undefined` for `all`, throws on `.start`, and both `end = 5` and
`end = 15` come back as the generic `'Validation error'` instead of the
claimed message / pass. -/
theorem custom_rule_not_invoked_with_form_values :
    validateFieldValue noRegex "end" (.num 5) endField none
      = some "Validation error" ∧
    validateFieldValue noRegex "end" (.num 15) endField none
      = some "Validation error" :=
  ⟨rfl, rfl⟩

/-- C2 (divergence evidence): when one field's custom predicate throws,
`validateFormData` returns an empty error map — the exception is caught
but not converted into a per-field message, and the other field's
`minLength` failure (reported when the throwing field is removed) is
lost as well. -/
theorem throwing_custom_swallows_whole_error_map :
    validateFormData noRegex dataThrowPlusMin schemaThrowPlusMin none = [] ∧
    validateFormData noRegex dataThrowPlusMin schemaMinOnly none
      = [("b", "Must be at least 3 characters")] :=
  ⟨rfl, rfl⟩

/-- C3 counterexample: a field whose `required` is the constantly-false
predicate still fails the empty value with the required message — the
claim that a false-yielding function incurs no required-failure is wrong
on this input. -/
theorem required_function_false_still_fails :
    validateFieldValue noRegex "maybe" (.str "")
      (requiredFnField fun _ => false) none = some "This field is required" :=
  rfl

/-- C3 amended: a function-valued `required` is consumed only through JS
truthiness, so the compiled validator treats the field as unconditionally
required — for every predicate `g` (never invoked) and every regex
engine, the empty value fails with the required message. -/
theorem required_function_always_required (g : Value → Bool)
    (re : RegexEngine) :
    validateFieldValue re "maybe" (.str "") (requiredFnField g) none
      = some "This field is required" :=
  rfl

/-- C4 (divergence evidence): a custom predicate returning the string
`"Username is already taken"` is coerced to `false` by
`typeof result === 'boolean' ? result : false`, and the attached message
is the resolved default `'Invalid value'`, not the returned string. -/
theorem custom_rule_string_result_discarded :
    validateFieldValue noRegex "username" (.str "bob") usernameField none
      = some "Invalid value" ∧
    validateFieldValue noRegex "username" (.str "bob") usernameField none
      ≠ some "Username is already taken" :=
  ⟨rfl, by decide⟩

/-- C9 counterexample: a field-level messages object that only overrides
`required` hides the form-level `minLength` override — the violation
message is the built-in default, not `"Form ML"`. -/
theorem field_messages_shadow_form_overrides :
    validateFieldValue noRegex "u" (.str "ab") fieldShadowed formOverrides
      = some "Must be at least 3 characters" ∧
    validateFieldValue noRegex "u" (.str "ab") fieldShadowed formOverrides
      ≠ some "Form ML" :=
  ⟨rfl, by decide⟩

/-- C9 amended: rule messages are resolved against the field-level
`validationMessages` object alone whenever the field has one (the
form-level overrides are ignored for rule keys, falling back to the
built-in defaults); per-key resolution `field > form > default` holds for
the `required` key, and `getValidationMessage` itself resolves per key in
that order when given both levels. -/
theorem message_resolution_amended :
    (∀ (re : RegexEngine) (f : FormField) (m : Msgs) (cm : Option Msgs),
        f.validationMessages = some m →
        (createFieldValidationSchema re f cm).tests
          = (createFieldValidationSchema re f none).tests) ∧
    (∀ (re : RegexEngine) (f : FormField) (cm : Option Msgs),
        requiredEnabled f = true →
        (createFieldValidationSchema re f cm).requiredMsg
          = some (getValidationMessage "required" f.validationMessages cm)) ∧
    (∀ (key : String) (fm : Msgs) (gm : Option Msgs) (s : String),
        lookupKey fm key = some s → s ≠ "" →
        getValidationMessage key (some fm) gm = s) ∧
    (∀ (key : String) (fm gm : Msgs) (s : String),
        lookupKey fm key = none → lookupKey gm key = some s → s ≠ "" →
        getValidationMessage key (some fm) (some gm) = s) := by
  refine ⟨?_, ?_, ?_, ?_⟩
  · intro re f m cm hm
    unfold createFieldValidationSchema
    rw [hm]
    cases f.validation <;> dsimp <;> split <;> rfl
  · intro re f cm hr
    unfold createFieldValidationSchema
    rw [if_pos hr]
  · intro key fm gm s hl hs
    simp [getValidationMessage, jsOrS, hl, hs]
  · intro key fm gm s h1 h2 hs
    simp [getValidationMessage, jsOrS, h1, h2, hs]

/-- C9 amended witness: the amended resolution applied to concrete
inputs — the shadowing field's compiled tests ignore the form overrides,
a function-required field resolves its required message per key, and
`getValidationMessage` picks the field entry, then the form entry. -/
theorem message_resolution_amended_witness :
    (createFieldValidationSchema noRegex fieldShadowed formOverrides).tests
      = (createFieldValidationSchema noRegex fieldShadowed none).tests ∧
    (createFieldValidationSchema noRegex (requiredFnField fun _ => true)
        none).requiredMsg = some "This field is required" ∧
    getValidationMessage "minLength" (some [("minLength", "X")]) none = "X" ∧
    getValidationMessage "minLength" (some [("required", "R")])
      (some [("minLength", "Y")]) = "Y" :=
  ⟨message_resolution_amended.1 noRegex fieldShadowed _ formOverrides rfl,
   message_resolution_amended.2.1 noRegex (requiredFnField fun _ => true)
     none rfl,
   message_resolution_amended.2.2.1 "minLength" [("minLength", "X")] none "X"
     rfl (by decide),
   message_resolution_amended.2.2.2 "minLength" [("required", "R")]
     [("minLength", "Y")] "Y" rfl rfl (by decide)⟩

end Conform
